import Mathlib

/-!
# Verification of `sktime.datatypes._check` (type-checking / dispatch layer)

Shallow embedding of `src/sktime/datatypes/_check.py`:

* `check_is`   — membership check of an object against one or several mtypes
* `check_raise` — raising variant of `check_is`
* `mtype`      — reverse inference of the mtype of an object under a scitype

The per-mtype validator functions (`check_dict_Series`, `check_dict_Panel`)
and the `mtype_to_scitype` table are external collaborators: they are
parameters of the embedding (a registry value `reg` and a function `m2s`),
exactly as the module receives them by import.

Python raises `ValueError` / `TypeError`; the error type below distinguishes
the raise sites, named after the specification's error taxonomy
(InputError ≙ the two `ValueError` sites, DispatchError ≙ the `TypeError`
at a failed registry/scitype lookup and the empty-message zero-match raise,
ValidationError ≙ the `TypeError` in `check_raise`, InternalConsistencyError
≙ the more-than-one-match `TypeError` in `mtype`).

`checkLoopT` / `check_isT` / `mtypeT` carry, besides the Python value, a
ghost trace: the list of registry keys whose validator was actually invoked,
in invocation order.  The trace is instrumentation only; the first component
is the faithful translation of the source.
-/

namespace Sktime

/-- Metadata mapping returned by validators (contents opaque to the dispatcher). -/
abbrev Metadata := List (String × Bool)

/-- A registry key: (mtype string, scitype string). -/
abbrev Key := String × String

/-- The `msg` return of `check_is`: after the loop, `msg = msg[0]` when exactly
one message was collected (a single string or `None`), otherwise the collected
list of per-mtype messages. -/
inductive Msg where
  | single (s : Option String)
  | listOf (xs : List (Option String))
  deriving DecidableEq, Repr

/-- A value returned by `check_is` / a validator: a bare bool when
`return_metadata=False`, the `(valid, msg, metadata)` triple when
`return_metadata=True`.  A validator's own `msg` is a single
string-or-`None` (`Msg.single`); the aggregated failure return of `check_is`
may carry a list instead. -/
inductive Res where
  | asBool (b : Bool)
  | asTriple (valid : Bool) (msg : Msg) (meta : Option Metadata)
  deriving DecidableEq, Repr

/-- Errors, one constructor per raise site, named after the spec taxonomy. -/
inductive PyErr where
  | inputError (msg : String)
  | dispatchError (msg : String)
  | validationError (msg : Msg)
  | internalConsistencyError (msg : String)
  deriving DecidableEq, Repr

/-- An element of a Python list passed as the `mtype` argument: a string, or
anything else. -/
inductive PyVal where
  | str (s : String)
  | other
  deriving DecidableEq, Repr

/-- The Python `mtype` argument: a string, a list, or any other object. -/
inductive MtypeArg where
  | str (s : String)
  | list (xs : List PyVal)
  | other
  deriving DecidableEq, Repr

/-- Is a list element a string (`isinstance(x, str)`)? -/
def PyVal.isStr : PyVal → Bool
  | .str _ => true
  | .other => false

/-- Extract the string of a list element (only used under an all-strings guard). -/
def PyVal.asStr : PyVal → String
  | .str s => s
  | .other => ""

/-- Wrap a list of strings as an `mtype` argument. -/
def strArg (ms : List String) : MtypeArg := MtypeArg.list (ms.map PyVal.str)

/-- An external validator.  Per the interface contract it is called as
`f(obj, return_metadata=..., var_name=...)` and returns a value whose shape
matches the `return_metadata` flag: a bool, or a `(valid, msg, metadata)`
triple.  `α` is the type of non-`None` Python objects; `Option α` adds `None`. -/
structure Validator (α : Type) where
  checkBool : Option α → String → Bool
  checkMeta : Option α → String → Bool × Option String × Option Metadata

/-- Invoke a validator; the result shape follows the `return_metadata` flag,
as the validator contract requires. -/
def Validator.run {α : Type} (f : Validator α) (obj : Option α) (rm : Bool)
    (vn : String) : Res :=
  if rm then
    let t := f.checkMeta obj vn
    Res.asTriple t.1 (Msg.single t.2.1) t.2.2
  else
    Res.asBool (f.checkBool obj vn)

/-- The pooled `check_dict`: an association list from `(mtype, scitype)` keys
to validators; a Python dict, so keys are assumed distinct where that matters. -/
abbrev Registry (α : Type) := List (Key × Validator α)

/-- `check_passed = res[0] if return_metadata else res`.  The two cross-arity
branches are unreachable because `Validator.run` matches the flag's arity:
a triple under `return_metadata=False` would be truthy in Python, and `res[0]`
on a bool would raise; neither happens for arity-respecting validators. -/
def resPassed : Bool → Res → Bool
  | true, Res.asTriple v _ _ => v
  | false, Res.asBool b => b
  | false, Res.asTriple _ _ _ => true
  | true, Res.asBool b => b

/-- `res[1]` of a validator result (only taken on a validator's triple,
whose message is a single string-or-`None`). -/
def resMsgOpt : Res → Option String
  | Res.asTriple _ (Msg.single m) _ => m
  | Res.asTriple _ (Msg.listOf _) _ => none
  | Res.asBool _ => none

/-- Truthiness of `res[0]` / of the bare bool, for consumers of `check_is`. -/
def resValid : Res → Bool
  | Res.asBool b => b
  | Res.asTriple v _ _ => v

/-- The `msg` component of a `check_is` triple result. -/
def resMsg : Res → Msg
  | Res.asTriple _ m _ => m
  | Res.asBool _ => Msg.listOf []

/-- `if len(msg) == 1: msg = msg[0]` -/
def collapseMsg : List (Option String) → Msg
  | [m] => Msg.single m
  | ms => Msg.listOf ms

/-- `ret(False, msg, None, return_metadata)` at the end of the loop. -/
def mkFailRet (rm : Bool) (msgs : List (Option String)) : Res :=
  if rm then Res.asTriple false (collapseMsg msgs) none else Res.asBool false

/-- The argument normalisation at the top of `check_is`:
a string becomes a one-element list; a list must contain only strings, else
`ValueError("list must be a string or list of strings")`; anything else gives
`ValueError("mtype must be a string or list of strings")`. -/
def normalizeArg : MtypeArg → Except PyErr (List String)
  | MtypeArg.str s => Except.ok [s]
  | MtypeArg.list xs =>
      if xs.all PyVal.isStr then Except.ok (xs.map PyVal.asStr)
      else Except.error (PyErr.inputError "list must be a string or list of strings")
  | MtypeArg.other =>
      Except.error (PyErr.inputError "mtype must be a string or list of strings")

/-- The `for m in mtype` loop of `check_is`, with a ghost trace of invoked
registry keys.  `sci` is the current value of the local variable `scitype`:
assigned from `mtype_to_scitype(m)` only while it is `None`, hence sticky —
the recursive call always passes `some sci'`.  `msgs` is the accumulated
`msg` list (appended to only when `return_metadata`). -/
def checkLoopT {α : Type} (reg : Registry α) (m2s : String → String)
    (obj : Option α) (rm : Bool) (vn : String) :
    List String → Option String → List (Option String) →
    Except PyErr Res × List Key
  | [], _, msgs => (Except.ok (mkFailRet rm msgs), [])
  | m :: rest, sci, msgs =>
    let sci' := sci.getD (m2s m)
    match List.lookup (m, sci') reg with
    | none =>
        (Except.error (PyErr.dispatchError
          ("no check defined for mtype " ++ m ++ ", scitype " ++ sci')), [])
    | some f =>
        let res := f.run obj rm vn
        if resPassed rm res then (Except.ok res, [(m, sci')])
        else
          let nxt := checkLoopT reg m2s obj rm vn rest (some sci')
              (if rm then msgs ++ [resMsgOpt res] else msgs)
          (nxt.1, (m, sci') :: nxt.2)

/-- `check_is`, with ghost trace. -/
def check_isT {α : Type} (reg : Registry α) (m2s : String → String)
    (obj : Option α) (mtypeArg : MtypeArg) (scitype : Option String)
    (return_metadata : Bool) (var_name : String) :
    Except PyErr Res × List Key :=
  match normalizeArg mtypeArg with
  | Except.error e => (Except.error e, [])
  | Except.ok ms => checkLoopT reg m2s obj return_metadata var_name ms scitype []

/-- `check_is(obj, mtype, scitype=None, return_metadata=False, var_name="obj")`. -/
def check_is {α : Type} (reg : Registry α) (m2s : String → String)
    (obj : Option α) (mtypeArg : MtypeArg) (scitype : Option String)
    (return_metadata : Bool) (var_name : String) : Except PyErr Res :=
  (check_isT reg m2s obj mtypeArg scitype return_metadata var_name).1

/-- `check_raise(obj, mtype, scitype=None, var_name="input")`: delegates to
`check_is` with `return_metadata=True`; returns `True` on `res[0]`, otherwise
raises `TypeError(res[1])` (the ValidationError of the taxonomy).  The
`asBool` branch is unreachable: with `return_metadata=True` the result is
always a triple. -/
def check_raise {α : Type} (reg : Registry α) (m2s : String → String)
    (obj : Option α) (mtypeArg : MtypeArg) (scitype : Option String)
    (var_name : String) : Except PyErr Bool :=
  match check_is reg m2s obj mtypeArg scitype true var_name with
  | Except.error e => Except.error e
  | Except.ok res =>
      if resValid res then Except.ok true
      else Except.error (PyErr.validationError (resMsg res))

/-- `valid_as_scitypes = list(set(x[1] for x in check_dict.keys()))`
(only membership is ever used, so duplicates are irrelevant). -/
def scitypesOf {α : Type} (reg : Registry α) : List String :=
  reg.map (fun e => e.1.2)

/-- `mtypes = [x[0] for x in check_dict.keys() if x[1] == as_scitype]`. -/
def mtypesFor {α : Type} (reg : Registry α) (S : String) : List String :=
  ((reg.map (fun e => e.1)).filter (fun k => k.2 == S)).map (fun k => k.1)

/-- Whether the registered validator for `(m, S)` accepts `obj` in boolean
mode (the way `mtype` probes each candidate). -/
def acceptsBool {α : Type} (reg : Registry α) (obj : Option α) (S m : String) :
    Bool :=
  match List.lookup (m, S) reg with
  | some f => f.checkBool obj "obj"
  | none => false

/-- The candidates under `S` that accept `obj` (in registry order). -/
def matchesFor {α : Type} (reg : Registry α) (obj : Option α) (S : String) :
    List String :=
  (mtypesFor reg S).filter (acceptsBool reg obj S)

/-- The failure message the validator for `(m, S)` records for `obj`. -/
def recordedMsg {α : Type} (reg : Registry α) (obj : Option α) (vn : String)
    (S m : String) : Option String :=
  match List.lookup (m, S) reg with
  | some f => (f.checkMeta obj vn).2.1
  | none => none

/-- `is_mtype = [check_is(obj, mtype=mtype, scitype=as_scitype) for mtype in mtypes]`
with ghost trace; an exception raised by any `check_is` call aborts the
comprehension. -/
def mtypeRun {α : Type} (reg : Registry α) (m2s : String → String) (o : α)
    (S : String) : List String → Except PyErr (List Bool) × List Key
  | [] => (Except.ok [], [])
  | m :: rest =>
    let c := check_isT reg m2s (some o) (MtypeArg.str m) (some S) false "obj"
    match c.1 with
    | Except.error e => (Except.error e, c.2)
    | Except.ok res =>
      let nxt := mtypeRun reg m2s o S rest
      match nxt.1 with
      | Except.error e => (Except.error e, c.2 ++ nxt.2)
      | Except.ok bs => (Except.ok (resValid res :: bs), c.2 ++ nxt.2)

/-- `mtype(obj, as_scitype)`, with ghost trace. -/
def mtypeT {α : Type} (reg : Registry α) (m2s : String → String)
    (obj : Option α) (as_scitype : String) :
    Except PyErr (Option String) × List Key :=
  match obj with
  | none => (Except.ok none, [])
  | some o =>
    if (scitypesOf reg).contains as_scitype then
      let mtypes := mtypesFor reg as_scitype
      let r := mtypeRun reg m2s o as_scitype mtypes
      match r.1 with
      | Except.error e => (Except.error e, r.2)
      | Except.ok bs =>
        let res := ((mtypes.zip bs).filter (fun p => p.2)).map (fun p => p.1)
        if 1 < bs.count true then
          (Except.error (PyErr.internalConsistencyError
            ("Error in check_is, more than one mtype identified: " ++ toString res)),
           r.2)
        else if bs.count true < 1 then
          (Except.error (PyErr.dispatchError ""), r.2)
        else (Except.ok (some (res.headD "")), r.2)
    else
      (Except.error (PyErr.dispatchError (as_scitype ++ " is not a supported scitype")),
       [])

/-- `mtype(obj, as_scitype)`. -/
def mtype {α : Type} (reg : Registry α) (m2s : String → String)
    (obj : Option α) (as_scitype : String) : Except PyErr (Option String) :=
  (mtypeT reg m2s obj as_scitype).1

/-! ## Concrete validators and registries, for instantiating the theorems -/

/-- A validator that accepts every object (including `None`). -/
def vAccept : Validator Nat :=
  ⟨fun _ _ => true,
   fun _ _ => (true, none, some [("is_univariate", true), ("is_equally_spaced", true)])⟩

/-- A validator that rejects every object with failure message `m`. -/
def vReject (m : String) : Validator Nat :=
  ⟨fun _ _ => false, fun _ _ => (false, some m, none)⟩

/-- A validator accepting exactly the object `k`, with failure message `m`. -/
def vEq (k : Nat) (m : String) : Validator Nat :=
  ⟨fun o _ => o == some k,
   fun o _ => if o == some k then (true, none, some []) else (false, some m, none)⟩

/-- A sample registry: mtypes `A`, `B` under scitype `S`; `C` under `S2`. -/
def regW : Registry Nat :=
  [(("A", "S"), vReject "A failed"),
   (("B", "S"), vEq 1 "B failed"),
   (("C", "S2"), vAccept)]

/-- The scitype table matching `regW`. -/
def m2sW : String → String := fun m => if m == "C" then "S2" else "S"

/-- Registry exhibiting the sticky-scitype behaviour: `A` lives under `S1`,
`B` under `S2`. -/
def regAB : Registry Nat :=
  [(("A", "S1"), vReject "A failed"), (("B", "S2"), vAccept)]

/-- The scitype table matching `regAB`: `A ↦ S1`, `B ↦ S2`. -/
def m2sAB : String → String := fun m => if m == "A" then "S1" else "S2"

/-- One-entry registry whose validator accepts everything, `None` included. -/
def regN : Registry Nat := [(("A", "S"), vAccept)]

/-- The scitype table matching `regN`. -/
def m2sN : String → String := fun _ => "S"










/-! ## Lemmas about the `check_is` loop -/

/-- A list of strings wrapped by `strArg` passes the argument check and
unwraps to itself. -/
theorem normalizeArg_strArg (ms : List String) : normalizeArg (strArg ms) = Except.ok ms := by
  induction ms with
  | nil => rfl
  | cons a t ih =>
    simp only [normalizeArg, strArg, List.map_cons, List.all_cons, PyVal.isStr,
      Bool.true_and] at ih ⊢
    by_cases h : (t.map PyVal.str).all PyVal.isStr
    · simp only [h, if_true] at ih ⊢
      simp only [Except.ok.injEq] at ih
      simp [PyVal.asStr, ih]
    · simp only [h, if_false] at ih
      cases ih

/-- If every mtype in the list has a registered validator under `S` that
rejects `obj`, the loop runs to the end, collecting one message per mtype
(in metadata mode), and invokes every validator in order. -/
theorem checkLoopT_all_fail {α : Type} (reg : Registry α) (m2s : String → String)
    (obj : Option α) (rm : Bool) (vn : String) (S : String) :
    ∀ (ms : List String) (msgs : List (Option String)),
    (∀ m ∈ ms, ∃ f, List.lookup (m, S) reg = some f ∧
        resPassed rm (f.run obj rm vn) = false) →
    checkLoopT reg m2s obj rm vn ms (some S) msgs =
      (Except.ok (mkFailRet rm
          (if rm then msgs ++ ms.map (recordedMsg reg obj vn S) else msgs)),
       ms.map (fun m => (m, S))) := by
  intro ms
  induction ms with
  | nil =>
    intro msgs _
    cases rm <;> simp [checkLoopT]
  | cons m rest ih =>
    intro msgs h
    obtain ⟨f, hf, hfail⟩ := h m (by simp)
    have hrest := fun x hx => h x (List.mem_cons_of_mem m hx)
    have hmsg : recordedMsg reg obj vn S m = resMsgOpt (f.run obj rm vn) ∨ rm = false := by
      cases rm
      · exact Or.inr rfl
      · refine Or.inl ?_
        simp [recordedMsg, hf, Validator.run, resMsgOpt]
    simp only [checkLoopT, Option.getD_some, hf]
    rw [if_neg (by simp [hfail])]
    rw [ih _ hrest]
    cases rm
    · simp
    · rcases hmsg with hmsg | hmsg
      · simp [hmsg]
      · cases hmsg

/-- First success wins: if every mtype before `m` has a registered validator
that rejects `obj` and `m`'s validator accepts, the loop returns `m`'s raw
validator result and invokes nothing after `m` — the tail `post` is
arbitrary and need not even be registered. -/
theorem checkLoopT_first_success {α : Type} (reg : Registry α) (m2s : String → String)
    (obj : Option α) (rm : Bool) (vn : String) (S : String) (m : String)
    (f : Validator α) (post : List String)
    (hm : List.lookup (m, S) reg = some f)
    (hp : resPassed rm (f.run obj rm vn) = true) :
    ∀ (pre : List String) (msgs : List (Option String)),
    (∀ x ∈ pre, ∃ g, List.lookup (x, S) reg = some g ∧
        resPassed rm (g.run obj rm vn) = false) →
    checkLoopT reg m2s obj rm vn (pre ++ m :: post) (some S) msgs =
      (Except.ok (f.run obj rm vn), pre.map (fun x => (x, S)) ++ [(m, S)]) := by
  intro pre
  induction pre with
  | nil =>
    intro msgs _
    simp only [List.nil_append, checkLoopT, Option.getD_some, hm]
    rw [if_pos hp]
    simp
  | cons x rest ih =>
    intro msgs h
    obtain ⟨g, hg, hgfail⟩ := h x (by simp)
    have hrest := fun y hy => h y (List.mem_cons_of_mem x hy)
    simp only [List.cons_append, checkLoopT, Option.getD_some, hg]
    rw [if_neg (by simp [hgfail])]
    simp only [List.append_eq]
    rw [ih _ hrest]
    simp

/-- The loop only ever raises dispatch errors. -/
theorem checkLoopT_error_dispatch {α : Type} (reg : Registry α) (m2s : String → String)
    (obj : Option α) (rm : Bool) (vn : String) :
    ∀ (ms : List String) (sci : Option String) (msgs : List (Option String)) (e : PyErr),
    (checkLoopT reg m2s obj rm vn ms sci msgs).1 = Except.error e →
    ∃ s, e = PyErr.dispatchError s := by
  intro ms
  induction ms with
  | nil =>
    intro sci msgs e h
    simp [checkLoopT] at h
  | cons m rest ih =>
    intro sci msgs e h
    rcases hlk : List.lookup (m, sci.getD (m2s m)) reg with _ | f
    · simp only [checkLoopT, hlk, Except.error.injEq] at h
      exact ⟨_, h.symm⟩
    · simp only [checkLoopT, hlk] at h
      by_cases hpass : resPassed rm (Validator.run f obj rm vn) = true
      · rw [if_pos hpass] at h
        cases h
      · rw [if_neg hpass] at h
        exact ih _ _ _ h

/-- In metadata mode the loop's successful return is always a triple. -/
theorem checkLoopT_meta_triple {α : Type} (reg : Registry α) (m2s : String → String)
    (obj : Option α) (vn : String) :
    ∀ (ms : List String) (sci : Option String) (msgs : List (Option String)) (r : Res),
    (checkLoopT reg m2s obj true vn ms sci msgs).1 = Except.ok r →
    ∃ v mg md, r = Res.asTriple v mg md := by
  intro ms
  induction ms with
  | nil =>
    intro sci msgs r h
    simp only [checkLoopT, mkFailRet, if_true] at h
    exact ⟨_, _, _, (Except.ok.injEq _ _ ▸ h).symm⟩
  | cons m rest ih =>
    intro sci msgs r h
    rcases hlk : List.lookup (m, sci.getD (m2s m)) reg with _ | f
    · simp only [checkLoopT, hlk] at h
      cases h
    · simp only [checkLoopT, hlk] at h
      by_cases hpass : resPassed true (Validator.run f obj true vn) = true
      · rw [if_pos hpass] at h
        simp only [Except.ok.injEq] at h
        subst h
        exact ⟨(f.checkMeta obj vn).1, Msg.single (f.checkMeta obj vn).2.1,
          (f.checkMeta obj vn).2.2, by simp [Validator.run]⟩
      · rw [if_neg hpass] at h
        exact ih _ _ _ h

/-- `check_is` on a single string mtype in boolean mode: a dispatch error if
the `(mtype, scitype)` key is missing, else the bare bool of the registered
validator. -/
theorem check_isT_str_bool {α : Type} (reg : Registry α) (m2s : String → String)
    (obj : Option α) (m : String) (sci : Option String) (vn : String) :
    check_isT reg m2s obj (MtypeArg.str m) sci false vn =
      match List.lookup (m, sci.getD (m2s m)) reg with
      | none => (Except.error (PyErr.dispatchError
          ("no check defined for mtype " ++ m ++ ", scitype " ++ sci.getD (m2s m))), [])
      | some f => (Except.ok (Res.asBool (f.checkBool obj vn)),
          [(m, sci.getD (m2s m))]) := by
  simp only [check_isT, normalizeArg, checkLoopT]
  rcases hlk : List.lookup (m, sci.getD (m2s m)) reg with _ | f
  · simp
  · rcases hb : f.checkBool obj vn with _ | _
    · simp [Validator.run, resPassed, hb, checkLoopT, mkFailRet]
    · simp [Validator.run, resPassed, hb]

/-! ## Lemmas about `mtype` -/

/-- A key occurring among the registry's keys has a registered validator. -/
theorem lookup_isSome_of_mem_keys {α : Type} (reg : Registry α) (k : Key)
    (h : k ∈ reg.map (fun e => e.1)) : ∃ f, List.lookup k reg = some f := by
  induction reg with
  | nil => simp at h
  | cons e t ih =>
    obtain ⟨k', f⟩ := e
    by_cases hk : k == k'
    · exact ⟨f, by simp [List.lookup, hk]⟩
    · simp only [List.map_cons, List.mem_cons] at h
      rcases h with h | h
      · exact absurd (by simp [h]) hk
      · obtain ⟨g, hg⟩ := ih h
        exact ⟨g, by simp [List.lookup, hk, hg]⟩

/-- When every candidate under `S` is registered (always true for the
candidates `mtype` builds), the probing comprehension completes without
error, returning each candidate's boolean verdict and invoking each
candidate's validator exactly once, in registry order. -/
theorem mtypeRun_registered {α : Type} (reg : Registry α) (m2s : String → String)
    (o : α) (S : String) :
    ∀ (ms : List String), (∀ m ∈ ms, (m, S) ∈ reg.map (fun e => e.1)) →
    mtypeRun reg m2s o S ms =
      (Except.ok (ms.map (acceptsBool reg (some o) S)), ms.map (fun m => (m, S))) := by
  intro ms
  induction ms with
  | nil => intro _; simp [mtypeRun]
  | cons m rest ih =>
    intro h
    obtain ⟨f, hf⟩ := lookup_isSome_of_mem_keys reg (m, S) (h m (by simp))
    have hc := check_isT_str_bool reg m2s (some o) m (some S) "obj"
    simp only [Option.getD_some, hf] at hc
    simp only [mtypeRun, hc]
    rw [ih (fun x hx => h x (List.mem_cons_of_mem m hx))]
    simp [resValid, acceptsBool, hf]

/-- The `res` list built by `mtype` from `zip`/`filter`/comprehension equals a
plain filter of the candidates. -/
theorem zip_filter_map (l : List String) (f : String → Bool) :
    ((l.zip (l.map f)).filter (fun p => p.2)).map (fun p => p.1) = l.filter f := by
  induction l with
  | nil => rfl
  | cons a t ih =>
    simp only [List.map_cons, List.zip_cons_cons, List.filter_cons]
    by_cases h : f a
    · simp [h, ih]
    · simp [h, ih]

/-- `np.sum` of the boolean verdicts is the number of accepted candidates. -/
theorem count_true_map (l : List String) (f : String → Bool) :
    (l.map f).count true = (l.filter f).length := by
  induction l with
  | nil => rfl
  | cons a t ih =>
    simp only [List.map_cons, List.count_cons, List.filter_cons]
    by_cases h : f a
    · simp [h, ih]
    · simp [h, ih]

/-- Each candidate produced by `mtypesFor reg S` is a registered key under `S`. -/
theorem mem_keys_of_mem_mtypesFor {α : Type} (reg : Registry α) (S : String) :
    ∀ m ∈ mtypesFor reg S, (m, S) ∈ reg.map (fun e => e.1) := by
  intro m hm
  unfold mtypesFor at hm
  obtain ⟨k, hk, rfl⟩ := List.mem_map.mp hm
  have hmem := (List.mem_filter.mp hk).1
  have hkS := (List.mem_filter.mp hk).2
  have hk2 : k = (k.1, S) := by
    obtain ⟨k1, k2⟩ := k
    simp only [beq_iff_eq] at hkS
    simp [hkS]
  exact hk2 ▸ hmem

/-- Master case analysis of `mtype` on a non-`None` object under a registered
scitype: the outcome is decided by the list of accepted candidates, and every
candidate's validator is probed. -/
theorem mtype_cases {α : Type} (reg : Registry α) (m2s : String → String)
    (o : α) (S : String) (hS : S ∈ scitypesOf reg) :
    mtypeT reg m2s (some o) S =
      (if 1 < (matchesFor reg (some o) S).length then
         Except.error (PyErr.internalConsistencyError
           ("Error in check_is, more than one mtype identified: " ++
             toString (matchesFor reg (some o) S)))
       else if (matchesFor reg (some o) S).length < 1 then
         Except.error (PyErr.dispatchError "")
       else Except.ok (some ((matchesFor reg (some o) S).headD "")),
       (mtypesFor reg S).map (fun m => (m, S))) := by
  have hrun := mtypeRun_registered reg m2s o S (mtypesFor reg S)
    (mem_keys_of_mem_mtypesFor reg S)
  have hcontains : (scitypesOf reg).contains S = true := by
    simpa using hS
  simp only [mtypeT, hcontains, if_true, hrun, zip_filter_map, count_true_map,
    matchesFor]
  split_ifs <;> rfl

/-- A filter of a duplicate-free list whose predicate holds at `F` alone is
`[F]`. -/
theorem filter_eq_single (p : String → Bool) (F : String) :
    ∀ (l : List String), l.Nodup → F ∈ l → p F = true →
      (∀ x ∈ l, x ≠ F → p x = false) → l.filter p = [F] := by
  intro l
  induction l with
  | nil => intro _ h; simp at h
  | cons a t ih =>
    intro hnd hF hpF ho
    rcases List.mem_cons.mp hF with rfl | hFt
    · have ht : t.filter p = [] := by
        rw [List.filter_eq_nil_iff]
        intro x hx
        have hxne : x ≠ F := fun he => (List.nodup_cons.mp hnd).1 (he ▸ hx)
        simp [ho x (List.mem_cons_of_mem _ hx) hxne]
      simp [List.filter_cons, hpF, ht]
    · have ha : p a = false :=
        ho a (by simp) (fun he => (List.nodup_cons.mp hnd).1 (he ▸ hFt))
      simp only [List.filter_cons, ha, Bool.false_eq_true, if_false]
      exact ih (List.nodup_cons.mp hnd).2 hFt hpF
        (fun x hx hxne => ho x (List.mem_cons_of_mem _ hx) hxne)

/-- With duplicate-free registry keys (a Python dict), the candidate list under
any scitype is duplicate-free. -/
theorem mtypesFor_nodup {α : Type} (reg : Registry α) (S : String)
    (h : (reg.map (fun e => e.1)).Nodup) : (mtypesFor reg S).Nodup := by
  unfold mtypesFor
  apply List.Nodup.map_on
  · intro x hx y hy hxy
    have hxS := (List.mem_filter.mp hx).2
    have hyS := (List.mem_filter.mp hy).2
    obtain ⟨x1, x2⟩ := x
    obtain ⟨y1, y2⟩ := y
    simp only [beq_iff_eq] at hxS hyS
    simp only at hxy
    simp [hxy, hxS, hyS]
  · exact h.filter _

/-- `check_is` on a single string mtype with an explicit scitype, boolean mode. -/
theorem check_is_str_bool {α : Type} (reg : Registry α) (m2s : String → String)
    (obj : Option α) (m : String) (S : String) (vn : String) :
    check_is reg m2s obj (MtypeArg.str m) (some S) false vn =
      match List.lookup (m, S) reg with
      | none => Except.error (PyErr.dispatchError
          ("no check defined for mtype " ++ m ++ ", scitype " ++ S))
      | some f => Except.ok (Res.asBool (f.checkBool obj vn)) := by
  have h := check_isT_str_bool reg m2s obj m (some S) vn
  simp only [Option.getD_some] at h
  unfold check_is
  rw [h]
  rcases hlk : List.lookup (m, S) reg with _ | f <;> rfl

/-- A key with a registered validator occurs among the registry's keys. -/
theorem mem_keys_of_lookup {α : Type} (reg : Registry α) (k : Key) (f : Validator α)
    (h : List.lookup k reg = some f) : k ∈ reg.map (fun e => e.1) := by
  induction reg with
  | nil => cases h
  | cons e t ih =>
    obtain ⟨k', g⟩ := e
    by_cases hk : k == k'
    · simp only [List.map_cons, List.mem_cons]
      exact Or.inl (by simpa using hk)
    · simp only [List.lookup, hk] at h
      exact List.mem_cons_of_mem _ (ih h)

/-- The scitype of any registered key is a registered scitype. -/
theorem scitype_mem_of_key {α : Type} (reg : Registry α) (F S : String)
    (h : (F, S) ∈ reg.map (fun e => e.1)) : S ∈ scitypesOf reg := by
  obtain ⟨e, he, hFS⟩ := List.mem_map.mp h
  exact List.mem_map.mpr ⟨e, he, by rw [hFS]⟩

/-- A registered key under `S` contributes its mtype to the candidate list. -/
theorem mem_mtypesFor_of_key {α : Type} (reg : Registry α) (F S : String)
    (h : (F, S) ∈ reg.map (fun e => e.1)) : F ∈ mtypesFor reg S := by
  unfold mtypesFor
  exact List.mem_map.mpr ⟨(F, S), List.mem_filter.mpr ⟨h, by simp⟩, rfl⟩

/-- The argument check only ever raises input errors. -/
theorem normalizeArg_error_input (a : MtypeArg) (e : PyErr)
    (h : normalizeArg a = Except.error e) : ∃ s, e = PyErr.inputError s := by
  rcases a with s | xs | _
  · cases h
  · by_cases hall : xs.all PyVal.isStr
    · simp [normalizeArg, hall] at h
    · simp only [normalizeArg, hall, Bool.false_eq_true, if_false,
        Except.error.injEq] at h
      exact ⟨_, h.symm⟩
  · simp only [normalizeArg, Except.error.injEq] at h
    exact ⟨_, h.symm⟩

/-- A successful `check_is` in metadata mode always returns a triple. -/
theorem check_is_meta_triple {α : Type} (reg : Registry α) (m2s : String → String)
    (obj : Option α) (a : MtypeArg) (sci : Option String) (vn : String) (r : Res)
    (h : check_is reg m2s obj a sci true vn = Except.ok r) :
    ∃ v mg md, r = Res.asTriple v mg md := by
  unfold check_is check_isT at h
  rcases hn : normalizeArg a with e | ms
  · rw [hn] at h; cases h
  · rw [hn] at h
    exact checkLoopT_meta_triple reg m2s obj vn ms sci [] r h

/-- Collapsing the message list of mapped per-mtype messages. -/
theorem collapseMsg_map (g : String → Option String) (ms : List String) :
    collapseMsg (ms.map g) =
      if ms.length = 1 then Msg.single (g (ms.headD ""))
      else Msg.listOf (ms.map g) := by
  rcases ms with _ | ⟨a, _ | ⟨b, t⟩⟩ <;> rfl

/-! ## Claim theorems -/

/-- Claim C1 (refuted — the code contradicts its own docstring, which says
"if inferred from mtype, list elements of mtype need not have same scitype").
The claim states that when `scitype` is omitted each format-tag's category is
derived independently, so distinct tags may resolve to distinct categories.
In the source the local `scitype` variable is reassigned on the first
iteration and is no longer `None` afterwards, so the first derived scitype
sticks.  At the concrete failing input: `A` lives under `S1`, `B` under `S2`,
`A`'s validator rejects; the sticky `S1` makes the `(B, S1)` lookup fail with
a dispatch error, even though `B`'s own scitype is `S2`, `(B, S2)` is
registered, and that validator accepts the object. -/
theorem check_is_sticky_scitype_bug :
    check_is regAB m2sAB (some 0) (strArg ["A", "B"]) none false "obj" =
      Except.error (PyErr.dispatchError "no check defined for mtype B, scitype S1") ∧
    m2sAB "B" = "S2" ∧
    List.lookup ("B", "S2") regAB = some vAccept ∧
    vAccept.checkBool (some 0) "obj" = true :=
  ⟨rfl, rfl, rfl, rfl⟩

/-- Claim C2 (confirmed): `mtype(obj, as_category=C)` for a registered
category `C` probes every format-tag registered under `C` (the ghost trace is
exactly the candidate list); more than one accepting candidate raises an
InternalConsistencyError, zero accepting candidates raise a DispatchError
whose message is the empty string, and exactly one accepting candidate is
returned. -/
theorem mtype_match_count_contract {α : Type} (reg : Registry α)
    (m2s : String → String) (o : α) (S : String) (hS : S ∈ scitypesOf reg) :
    ((mtypeT reg m2s (some o) S).2 = (mtypesFor reg S).map (fun m => (m, S))) ∧
    (1 < (matchesFor reg (some o) S).length →
      ∃ s, mtype reg m2s (some o) S =
        Except.error (PyErr.internalConsistencyError s)) ∧
    ((matchesFor reg (some o) S).length = 0 →
      mtype reg m2s (some o) S = Except.error (PyErr.dispatchError "")) ∧
    (∀ F, matchesFor reg (some o) S = [F] →
      mtype reg m2s (some o) S = Except.ok (some F)) := by
  have h := mtype_cases reg m2s o S hS
  refine ⟨by rw [h], ?_, ?_, ?_⟩
  · intro h1
    unfold mtype
    rw [h]
    simp only [if_pos h1]
    exact ⟨_, rfl⟩
  · intro h0
    unfold mtype
    rw [h]
    rw [if_neg (by omega), if_pos (by omega)]
  · intro F hF
    unfold mtype
    rw [h, hF]
    norm_num

/-- Witness for C2 at a concrete input: probing `obj = 2` under scitype `S`
of `regW` matches no candidate, so `mtype` raises the empty-message
DispatchError. -/
theorem mtype_match_count_contract_witness :
    mtype regW m2sW (some 2) "S" = Except.error (PyErr.dispatchError "") :=
  (mtype_match_count_contract regW m2sW 2 "S" (by decide)).2.2.1 (by decide)

/-- Claim C3 (confirmed): with a sequence of format-tags where all tags
before `m` have validators that reject and `m`'s validator accepts,
`check_is` returns `m`'s raw validator result unmodified, and the ghost trace
shows that no validator after `m` is invoked — the tail `post` is arbitrary
and need not even be registered. -/
theorem check_is_first_success_short_circuit {α : Type} (reg : Registry α)
    (m2s : String → String) (obj : Option α) (rm : Bool) (vn : String)
    (S : String) (pre : List String) (m : String) (post : List String)
    (f : Validator α)
    (hpre : ∀ x ∈ pre, ∃ g, List.lookup (x, S) reg = some g ∧
        resPassed rm (g.run obj rm vn) = false)
    (hm : List.lookup (m, S) reg = some f)
    (hp : resPassed rm (f.run obj rm vn) = true) :
    check_isT reg m2s obj (strArg (pre ++ m :: post)) (some S) rm vn =
      (Except.ok (f.run obj rm vn), pre.map (fun x => (x, S)) ++ [(m, S)]) := by
  simp only [check_isT, normalizeArg_strArg]
  exact checkLoopT_first_success reg m2s obj rm vn S m f post hm hp pre [] hpre

/-- Witness for C3 at a concrete input: `A` fails, `B` succeeds, and the
unregistered tag `Z` after the success is never reached. -/
theorem check_is_first_success_short_circuit_witness :
    check_isT regW m2sW (some 1) (strArg ["A", "B", "Z"]) (some "S") true "obj" =
      (Except.ok ((vEq 1 "B failed").run (some 1) true "obj"),
       [("A", "S"), ("B", "S")]) :=
  check_is_first_success_short_circuit regW m2sW (some 1) true "obj" "S"
    ["A"] "B" ["Z"] (vEq 1 "B failed")
    (by
      intro x hx
      simp only [List.mem_singleton] at hx
      subst hx
      exact ⟨vReject "A failed", rfl, rfl⟩)
    rfl rfl

/-- Claim C4 (confirmed): in metadata mode, when every format-tag's validator
rejects, `check_is` returns `(False, msg, None)` where `msg` is the single
recorded message if exactly one format-tag was given and otherwise the
ordered list of per-format-tag failure messages. -/
theorem check_is_all_fail_msg {α : Type} (reg : Registry α)
    (m2s : String → String) (obj : Option α) (vn : String) (S : String)
    (ms : List String)
    (hfail : ∀ m ∈ ms, ∃ f, List.lookup (m, S) reg = some f ∧
        (f.checkMeta obj vn).1 = false) :
    check_is reg m2s obj (strArg ms) (some S) true vn =
      Except.ok (Res.asTriple false
        (if ms.length = 1 then Msg.single (recordedMsg reg obj vn S (ms.headD ""))
         else Msg.listOf (ms.map (recordedMsg reg obj vn S)))
        none) := by
  have hfail' : ∀ m ∈ ms, ∃ f, List.lookup (m, S) reg = some f ∧
      resPassed true (f.run obj true vn) = false := by
    intro m hm
    obtain ⟨f, hf, hv⟩ := hfail m hm
    exact ⟨f, hf, by simp [Validator.run, resPassed, hv]⟩
  unfold check_is
  simp only [check_isT, normalizeArg_strArg]
  rw [checkLoopT_all_fail reg m2s obj true vn S ms [] hfail']
  simp only [if_true, List.nil_append, mkFailRet]
  rw [collapseMsg_map]

/-- Witness for C4 at a concrete input: both `A` and `B` fail for `obj = 0`,
and `msg` is the two messages in caller order. -/
theorem check_is_all_fail_msg_witness :
    check_is regW m2sW (some 0) (strArg ["A", "B"]) (some "S") true "obj" =
      Except.ok (Res.asTriple false
        (Msg.listOf [some "A failed", some "B failed"]) none) :=
  check_is_all_fail_msg regW m2sW (some 0) "obj" "S" ["A", "B"]
    (by
      intro m hm
      simp only [List.mem_cons, List.mem_singleton] at hm
      rcases hm with rfl | rfl | h
      · exact ⟨vReject "A failed", rfl, rfl⟩
      · exact ⟨vEq 1 "B failed", rfl, rfl⟩
      · cases h)

/-- Claim C5 (confirmed): `check_raise` returns `True` exactly when
`check_is` with `return_metadata=True` reports valid, and when `check_is`
reports invalid with message `msg`, `check_raise` raises a ValidationError
carrying exactly that `msg`.  (When `check_is` itself raises, `check_raise`
propagates that error unchanged, so it does not return `True` then either.) -/
theorem check_raise_contract {α : Type} (reg : Registry α)
    (m2s : String → String) (obj : Option α) (a : MtypeArg)
    (sci : Option String) (vn : String) :
    (check_raise reg m2s obj a sci vn = Except.ok true ↔
      ∃ mg md, check_is reg m2s obj a sci true vn =
        Except.ok (Res.asTriple true mg md)) ∧
    (∀ mg md, check_is reg m2s obj a sci true vn =
        Except.ok (Res.asTriple false mg md) →
      check_raise reg m2s obj a sci vn =
        Except.error (PyErr.validationError mg)) := by
  constructor
  · constructor
    · intro h
      rcases hci : check_is reg m2s obj a sci true vn with e | r
      · unfold check_raise at h
        rw [hci] at h
        cases h
      · obtain ⟨v, mg, md, rfl⟩ := check_is_meta_triple reg m2s obj a sci vn r hci
        unfold check_raise at h
        rw [hci] at h
        by_cases hv : resValid (Res.asTriple v mg md) = true
        · simp only [resValid] at hv
          subst hv
          exact ⟨mg, md, rfl⟩
        · simp [hv] at h
    · rintro ⟨mg, md, hci⟩
      unfold check_raise
      rw [hci]
      simp [resValid]
  · intro mg md hci
    unfold check_raise
    rw [hci]
    simp [resValid, resMsg]

/-- Witness for C5 at a concrete input: `A` rejects `obj = 0`, so
`check_raise` raises a ValidationError carrying `A`'s message. -/
theorem check_raise_contract_witness :
    check_raise regW m2sW (some 0) (MtypeArg.str "A") (some "S") "input" =
      Except.error (PyErr.validationError (Msg.single (some "A failed"))) :=
  (check_raise_contract regW m2sW (some 0) (MtypeArg.str "A")
    (some "S") "input").2 (Msg.single (some "A failed")) none rfl

/-- Claim C6 (confirmed): `check_is` raises only for malformed arguments or
failed dispatch lookups: every raised error is an InputError or a
DispatchError; a list argument containing a non-string raises the InputError
`"list must be a string or list of strings"`; a non-string non-list argument
raises the InputError `"mtype must be a string or list of strings"`; a string
format-tag whose `(format-tag, category)` pair is unregistered raises a
DispatchError (not an InputError); and when every requested tag is registered
but its validator rejects, `check_is` raises nothing and reports invalid. -/
theorem check_is_error_taxonomy {α : Type} (reg : Registry α)
    (m2s : String → String) (obj : Option α) (sci : Option String) (rm : Bool)
    (vn : String) :
    (∀ (a : MtypeArg) (e : PyErr),
        check_is reg m2s obj a sci rm vn = Except.error e →
        (∃ s, e = PyErr.inputError s) ∨ (∃ s, e = PyErr.dispatchError s)) ∧
    (∀ (xs : List PyVal), xs.all PyVal.isStr = false →
        check_is reg m2s obj (MtypeArg.list xs) sci rm vn =
          Except.error (PyErr.inputError "list must be a string or list of strings")) ∧
    (check_is reg m2s obj MtypeArg.other sci rm vn =
        Except.error (PyErr.inputError "mtype must be a string or list of strings")) ∧
    (∀ (s : String), List.lookup (s, sci.getD (m2s s)) reg = none →
        check_is reg m2s obj (MtypeArg.str s) sci rm vn =
          Except.error (PyErr.dispatchError
            ("no check defined for mtype " ++ s ++ ", scitype " ++ sci.getD (m2s s)))) ∧
    (∀ (S : String) (ms : List String),
        (∀ m ∈ ms, ∃ f, List.lookup (m, S) reg = some f ∧
            resPassed rm (f.run obj rm vn) = false) →
        ∃ r, check_is reg m2s obj (strArg ms) (some S) rm vn = Except.ok r ∧
          resValid r = false) := by
  refine ⟨?_, ?_, ?_, ?_, ?_⟩
  · intro a e h
    unfold check_is check_isT at h
    rcases hn : normalizeArg a with e' | ms
    · rw [hn] at h
      simp only [Except.error.injEq] at h
      subst h
      exact Or.inl (normalizeArg_error_input a e' hn)
    · rw [hn] at h
      exact Or.inr (checkLoopT_error_dispatch reg m2s obj rm vn ms sci [] e h)
  · intro xs hxs
    unfold check_is check_isT
    simp [normalizeArg, hxs]
  · rfl
  · intro s hlk
    unfold check_is
    simp only [check_isT, normalizeArg, checkLoopT, hlk]
  · intro S ms hfail
    refine ⟨mkFailRet rm (if rm then ms.map (recordedMsg reg obj vn S) else []), ?_, ?_⟩
    · unfold check_is
      simp only [check_isT, normalizeArg_strArg]
      rw [checkLoopT_all_fail reg m2s obj rm vn S ms [] hfail]
      simp
    · cases rm <;> rfl

/-- Witness for C6 at concrete inputs: a list with a non-string element gives
the InputError; a string tag with no registry entry gives the DispatchError;
a registered tag whose validator rejects yields a `False` result, no error. -/
theorem check_is_error_taxonomy_witness :
    (check_is regW m2sW (some 1) (MtypeArg.list [PyVal.str "x", PyVal.other])
        (some "S") false "obj" =
      Except.error (PyErr.inputError "list must be a string or list of strings")) ∧
    (check_is regW m2sW (some 1) (MtypeArg.str "nonexistent") (some "S") false "obj" =
      Except.error (PyErr.dispatchError
        "no check defined for mtype nonexistent, scitype S")) ∧
    (∃ r, check_is regW m2sW (some 0) (strArg ["A"]) (some "S") false "obj" =
        Except.ok r ∧ resValid r = false) := by
  have h := check_is_error_taxonomy regW m2sW (some 1) (some "S") false "obj"
  have h0 := check_is_error_taxonomy regW m2sW (some 0) (some "S") false "obj"
  refine ⟨h.2.1 [PyVal.str "x", PyVal.other] rfl, h.2.2.2.1 "nonexistent" rfl, ?_⟩
  exact h0.2.2.2.2 "S" ["A"]
    (by
      intro m hm
      simp only [List.mem_singleton] at hm
      subst hm
      exact ⟨vReject "A failed", rfl, rfl⟩)

/-- Claim C7, counterexample: the round-trip as stated is false when the
object is `None`.  In `regN` the object `None` validates successfully under
format-tag `A` (the only format-tag registered for category `S`), yet
`mtype(None, as_category=S)` returns `None`, not `A`, because the `None`
pass-through fires before any inference. -/
theorem mtype_roundtrip_counterexample :
    check_is regN m2sN (none : Option Nat) (MtypeArg.str "A") (some "S") false "obj" =
      Except.ok (Res.asBool true) ∧
    mtypesFor regN "S" = ["A"] ∧
    mtype regN m2sN (none : Option Nat) "S" ≠ Except.ok (some "A") := by
  refine ⟨rfl, rfl, ?_⟩
  intro h
  rw [show mtype regN m2sN (none : Option Nat) "S" = Except.ok none from rfl] at h
  simp at h

/-- Claim C7, amended (confirmed): for every object that is not `None` and
validates successfully under format-tag `F` with category `C` and under no
other format-tag registered for `C`, `mtype(obj, as_category=C)` returns `F`.
(The registry's keys are distinct, as they are in a Python dict.) -/
theorem mtype_roundtrip_of_ne_none {α : Type} (reg : Registry α)
    (m2s : String → String) (o : α) (F S : String)
    (hnd : (reg.map (fun e => e.1)).Nodup)
    (hF : check_is reg m2s (some o) (MtypeArg.str F) (some S) false "obj" =
      Except.ok (Res.asBool true))
    (hothers : ∀ F', (F', S) ∈ reg.map (fun e => e.1) → F' ≠ F →
      check_is reg m2s (some o) (MtypeArg.str F') (some S) false "obj" =
        Except.ok (Res.asBool false)) :
    mtype reg m2s (some o) S = Except.ok (some F) := by
  have hFacc : acceptsBool reg (some o) S F = true ∧
      (F, S) ∈ reg.map (fun e => e.1) := by
    have h := check_is_str_bool reg m2s (some o) F S "obj"
    rcases hlk : List.lookup (F, S) reg with _ | f
    · rw [hlk] at h
      rw [h] at hF
      cases hF
    · rw [hlk] at h
      rw [h] at hF
      simp only [Except.ok.injEq, Res.asBool.injEq] at hF
      exact ⟨by simp [acceptsBool, hlk, hF], mem_keys_of_lookup reg (F, S) f hlk⟩
  have hSmem : S ∈ scitypesOf reg := scitype_mem_of_key reg F S hFacc.2
  have hFmem : F ∈ mtypesFor reg S := mem_mtypesFor_of_key reg F S hFacc.2
  have hacc : ∀ m ∈ mtypesFor reg S, m ≠ F → acceptsBool reg (some o) S m = false := by
    intro m hm hne
    obtain ⟨g, hg⟩ := lookup_isSome_of_mem_keys reg (m, S)
      (mem_keys_of_mem_mtypesFor reg S m hm)
    have h := check_is_str_bool reg m2s (some o) m S "obj"
    rw [hg] at h
    have ho := hothers m (mem_keys_of_mem_mtypesFor reg S m hm) hne
    rw [h] at ho
    simp only [Except.ok.injEq, Res.asBool.injEq] at ho
    simp [acceptsBool, hg, ho]
  have hmatch : matchesFor reg (some o) S = [F] := by
    unfold matchesFor
    exact filter_eq_single (acceptsBool reg (some o) S) F (mtypesFor reg S)
      (mtypesFor_nodup reg S hnd) hFmem hFacc.1 hacc
  have h := mtype_cases reg m2s o S hSmem
  unfold mtype
  rw [h, hmatch]
  norm_num

/-- Witness for the amended C7 at a concrete input: `obj = 1` validates under
`B` and under no other format-tag of scitype `S` in `regW`, and `mtype`
returns `B`. -/
theorem mtype_roundtrip_of_ne_none_witness :
    mtype regW m2sW (some 1) "S" = Except.ok (some "B") :=
  mtype_roundtrip_of_ne_none regW m2sW 1 "B" "S" (by decide) rfl
    (by
      intro F' hmem hne
      simp only [regW, List.map_cons, List.map_nil] at hmem
      rcases List.mem_cons.mp hmem with h1 | hmem1
      · have hFA : F' = "A" := congrArg Prod.fst h1
        subst hFA
        rfl
      · rcases List.mem_cons.mp hmem1 with h2 | hmem2
        · exact absurd (congrArg Prod.fst h2) hne
        · rcases List.mem_cons.mp hmem2 with h3 | hmem3
          · exact absurd (congrArg Prod.snd h3) (show ("S" : String) ≠ "S2" by decide)
          · exact absurd hmem3 (List.not_mem_nil _))

/-- Claim C8 (confirmed): for a registered category, `mtype(None, ...)`
returns `None` and its ghost trace is empty — no validator is invoked. -/
theorem mtype_none_passthrough {α : Type} (reg : Registry α)
    (m2s : String → String) (S : String) (_hS : S ∈ scitypesOf reg) :
    mtypeT reg m2s (none : Option α) S = (Except.ok none, []) := rfl

/-- Witness for C8 at a concrete input. -/
theorem mtype_none_passthrough_witness :
    mtypeT regW m2sW (none : Option Nat) "S" = (Except.ok none, []) :=
  mtype_none_passthrough regW m2sW "S" (by decide)

/-- Claim C9 (confirmed): the `None` pass-through precedes the
category-validity check: `mtype(None, as_category=S)` returns `None` with no
validator invoked even for an unregistered `S`, while the same unregistered
`S` with a non-`None` object raises the DispatchError. -/
theorem mtype_none_before_scitype_check {α : Type} (reg : Registry α)
    (m2s : String → String) (S : String) (hS : S ∉ scitypesOf reg) :
    mtypeT reg m2s (none : Option α) S = (Except.ok none, []) ∧
    ∀ (o : α), mtype reg m2s (some o) S =
      Except.error (PyErr.dispatchError (S ++ " is not a supported scitype")) := by
  refine ⟨rfl, ?_⟩
  intro o
  simp [mtype, mtypeT, hS]

/-- Witness for C9 at a concrete input: `ZZZ` is not a scitype of `regW`. -/
theorem mtype_none_before_scitype_check_witness :
    mtypeT regW m2sW (none : Option Nat) "ZZZ" = (Except.ok none, []) ∧
    mtype regW m2sW (some 5) "ZZZ" =
      Except.error (PyErr.dispatchError "ZZZ is not a supported scitype") := by
  have h := mtype_none_before_scitype_check regW m2sW "ZZZ" (by decide)
  exact ⟨h.1, h.2 5⟩

/-- Claim C10 (confirmed): an empty list of format-tags invokes no validator
and raises no error; boolean mode returns `False`, metadata mode returns
`(False, msg, None)` with `msg` the empty list rather than a string. -/
theorem check_is_empty_mtype_list {α : Type} (reg : Registry α)
    (m2s : String → String) (obj : Option α) (sci : Option String) (vn : String) :
    check_isT reg m2s obj (strArg []) sci false vn =
      (Except.ok (Res.asBool false), []) ∧
    check_isT reg m2s obj (strArg []) sci true vn =
      (Except.ok (Res.asTriple false (Msg.listOf []) none), []) :=
  ⟨rfl, rfl⟩

end Sktime
